import Mathlib

/-!
A shallow embedding of `src/src/icp_rust_boilerplate_backend/src/lib.rs`
(an ICP bakery-shop inventory canister) and proofs about its operations.

Modelling conventions:

* The canister's thread-local state (`ID_COUNTER : Cell<u64>` and
  `STORAGE : StableBTreeMap<u64, Product>`) is made explicit as a `State`
  record; every `#[ic_cdk::update]` function becomes a Lean function
  `State → args → Except Error result × State`, and every
  `#[ic_cdk::query]` function becomes `State → args → result` (queries
  never write the state in the source).
* `ic_cdk::api::time()` is modelled by passing the current time `now : Nat`
  as an explicit argument to the operations that call it.
* `u32` quantities are `Nat` with arithmetic reduced `% 2^32` where the
  source performs unchecked `u32` addition (`quantity += amount`).
  The `u64` id counter is a plain `Nat` incremented by 1: the spec puts
  u64 exhaustion of the allocator out of scope, and `Cell::<u64>::set`
  never fails for a fixed-size 8-byte cell, so `generate_unique_id`
  always succeeds in the model.
* The `StableBTreeMap` is modelled as an association list
  `List (Nat × Product)`; well-formed states keep it sorted by strictly
  increasing key (the invariant `WF` below, preserved by every operation),
  which makes the list itself the ascending-key iteration order of the map.
* Rust's `str::trim` is Lean's `String.trim` (both strip leading and
  trailing whitespace; they agree on ASCII whitespace).
-/

namespace BakeryShop

/-- Source `enum Category { Bakery, Cake, Cookies }` (default `Bakery`). -/
inductive Category where
  | Bakery
  | Cake
  | Cookies
deriving DecidableEq, Repr, Inhabited

/-- Source `struct Product { id, name, category, quantity, created_at, updated_at }`. -/
structure Product where
  id : Nat
  name : String
  category : Category
  quantity : Nat
  created_at : Nat
  updated_at : Option Nat
deriving DecidableEq, Repr, Inhabited

/-- Source `struct ProductPayload { name, quantity, category }`. -/
structure ProductPayload where
  name : String
  quantity : Nat
  category : Category
deriving DecidableEq, Repr

/-- Source `struct StockPayload { amount }`. -/
structure StockPayload where
  amount : Nat
deriving DecidableEq, Repr

/-- Source `enum Error { NotFound { msg }, InvalidOperation { msg } }`. -/
inductive Error where
  | NotFound (msg : String)
  | InvalidOperation (msg : String)
deriving DecidableEq, Repr

deriving instance DecidableEq for Except

/-- Modulus of `u32` arithmetic. -/
def U32MOD : Nat := 2 ^ 32

/-- Source `StableBTreeMap::get`: first (unique, for well-formed states) entry
with the given key. -/
def storeGet (l : List (Nat × Product)) (id : Nat) : Option Product :=
  match l with
  | [] => none
  | (k, v) :: rest => if k = id then some v else storeGet rest id

/-- Source `StableBTreeMap::insert`: upsert that keeps the list sorted by key. -/
def storeInsert (l : List (Nat × Product)) (id : Nat) (p : Product) :
    List (Nat × Product) :=
  match l with
  | [] => [(id, p)]
  | (k, v) :: rest =>
    if id < k then (id, p) :: (k, v) :: rest
    else if id = k then (id, p) :: rest
    else (k, v) :: storeInsert rest id p

/-- Source `StableBTreeMap::remove`: drop the entry with the given key. -/
def storeRemoveKey (l : List (Nat × Product)) (id : Nat) :
    List (Nat × Product) :=
  l.filter (fun kv => decide (kv.1 ≠ id))

/-- The canister's durable state: the `ID_COUNTER` cell and the
`STORAGE` map. -/
structure State where
  counter : Nat
  storage : List (Nat × Product)
deriving DecidableEq, Repr

/-- Fresh canister state: counter initialised to 0, empty map. -/
def initState : State := ⟨0, []⟩

/-- Source `generate_unique_id`: reads the counter, writes `counter + 1`, and
returns the pre-increment value (`ic_stable_structures::Cell::set` returns
the previous value; for a fixed-size `u64` cell it cannot fail, so the
`map_err` arm is dead in the model). -/
def generate_unique_id (s : State) : Except Error Nat × State :=
  (Except.ok s.counter, ⟨s.counter + 1, s.storage⟩)

/-- Rust's `name.trim().is_empty()`: trimming removes leading and trailing
whitespace, so the trimmed string is empty exactly when every character of
the string is whitespace.  Modelled directly on the character list (rather
than through `String.trim`, whose auxiliary functions do not reduce in the
kernel) so that it is evaluable on concrete inputs. -/
def trim_is_empty (s : String) : Bool :=
  s.data.all Char.isWhitespace

/-- Source `validate_product_payload`: rejects a name that is empty after
trimming, then a zero quantity. -/
def validate_product_payload (payload : ProductPayload) : Except Error Unit :=
  if trim_is_empty payload.name then
    Except.error (Error.InvalidOperation "Product name cannot be empty.")
  else if payload.quantity = 0 then
    Except.error (Error.InvalidOperation "Product quantity must be greater than zero.")
  else
    Except.ok ()

/-- Source `validate_stock_payload`: rejects a zero amount. -/
def validate_stock_payload (payload : StockPayload) : Except Error Unit :=
  if payload.amount = 0 then
    Except.error (Error.InvalidOperation "Stock amount must be greater than zero.")
  else
    Except.ok ()

/-- Source `_get_product`: point lookup in `STORAGE`. -/
def _get_product (s : State) (id : Nat) : Option Product :=
  storeGet s.storage id

/-- Source `get_product` (query). -/
def get_product (s : State) (id : Nat) : Except Error Product :=
  match _get_product s id with
  | some product => Except.ok product
  | none => Except.error (Error.NotFound
      ("A product with id=" ++ toString id ++ " was not found"))

/-- Source `get_stock` (query). -/
def get_stock (s : State) (id : Nat) : Except Error Nat :=
  match _get_product s id with
  | some product => Except.ok product.quantity
  | none => Except.error (Error.NotFound
      ("A product with id=" ++ toString id ++ " was not found"))

/-- Source `do_insert`: insert a product into `STORAGE` under its own id. -/
def do_insert (s : State) (product : Product) : State :=
  ⟨s.counter, storeInsert s.storage product.id product⟩

/-- Source `add_product` (update): validate, allocate an id, build the record with
`created_at = now`, `updated_at = None`, and insert it. -/
def add_product (s : State) (payload : ProductPayload) (now : Nat) :
    Except Error Product × State :=
  match validate_product_payload payload with
  | Except.error e => (Except.error e, s)
  | Except.ok _ =>
    match generate_unique_id s with
    | (Except.error e, s1) => (Except.error e, s1)
    | (Except.ok id, s1) =>
      let product : Product :=
        ⟨id, payload.name, payload.category, payload.quantity, now, none⟩
      (Except.ok product, ⟨s1.counter, storeInsert s1.storage product.id product⟩)

/-- Source `update_product` (update): validate, then overwrite name, category and
quantity of the existing record, stamping `updated_at = now`. -/
def update_product (s : State) (id : Nat) (payload : ProductPayload) (now : Nat) :
    Except Error Product × State :=
  match validate_product_payload payload with
  | Except.error e => (Except.error e, s)
  | Except.ok _ =>
    match storeGet s.storage id with
    | some product =>
      let product1 : Product :=
        { product with
            name := payload.name
            category := payload.category
            quantity := payload.quantity
            updated_at := some now }
      (Except.ok product1, ⟨s.counter, storeInsert s.storage id product1⟩)
    | none =>
      (Except.error (Error.NotFound
        ("Product with id=" ++ toString id ++ " not found")), s)

/-- Source `add_quantity` (update): validate the stock payload, then
`quantity += amount` (u32 wrap-around) and `updated_at = now`. -/
def add_quantity (s : State) (id : Nat) (payload : StockPayload) (now : Nat) :
    Except Error Product × State :=
  match validate_stock_payload payload with
  | Except.error e => (Except.error e, s)
  | Except.ok _ =>
    match storeGet s.storage id with
    | some product =>
      let product1 : Product :=
        { product with
            quantity := (product.quantity + payload.amount) % U32MOD
            updated_at := some now }
      (Except.ok product1, do_insert s product1)
    | none =>
      (Except.error (Error.NotFound
        ("Couldn't add quantity to product with id=" ++ toString id
          ++ ". Product not found")), s)

/-- Source `search_by_category` (query): filter the full scan by category. -/
def search_by_category (s : State) (category : Category) : List Product :=
  (s.storage.filter (fun kv => decide (kv.2.category = category))).map
    (fun kv => kv.2)

/-- Source `offload_quantity` (update): validate the stock payload, reject when the
current quantity is 0 or the amount exceeds it, otherwise
`quantity -= amount` and `updated_at = now`. -/
def offload_quantity (s : State) (id : Nat) (payload : StockPayload) (now : Nat) :
    Except Error Product × State :=
  match validate_stock_payload payload with
  | Except.error e => (Except.error e, s)
  | Except.ok _ =>
    match storeGet s.storage id with
    | some product =>
      if product.quantity = 0 then
        (Except.error (Error.InvalidOperation
          ("Product with id=" ++ toString id
            ++ " cannot be offloaded because the quantity is 0")), s)
      else if product.quantity < payload.amount then
        (Except.error (Error.InvalidOperation
          ("Cannot offload more than available quantity. Available: "
            ++ toString product.quantity ++ ", Trying to offload: "
            ++ toString payload.amount)), s)
      else
        let product1 : Product :=
          { product with
              quantity := product.quantity - payload.amount
              updated_at := some now }
        (Except.ok product1, do_insert s product1)
    | none =>
      (Except.error (Error.NotFound
        ("Couldn't offload a product with id=" ++ toString id
          ++ ". Product not found")), s)

/-- Source `list_all_products` (query): full scan in map iteration (ascending key)
order. -/
def list_all_products (s : State) : List Product :=
  s.storage.map (fun kv => kv.2)

/-- Source `clear_all_products` (update): collect every key, then remove each; the
id counter is not touched. -/
def clear_all_products (s : State) : State :=
  let keys : List Nat := s.storage.map (fun kv => kv.1)
  ⟨s.counter, keys.foldl (fun st k => storeRemoveKey st k) s.storage⟩

/-- Source `remove_product` (update): remove and return the record, `NotFound` if
absent. -/
def remove_product (s : State) (id : Nat) : Except Error Product × State :=
  match storeGet s.storage id with
  | some product =>
    (Except.ok product, ⟨s.counter, storeRemoveKey s.storage id⟩)
  | none =>
    (Except.error (Error.NotFound
      ("Couldn't delete a product with id=" ++ toString id
        ++ ". Product not found")), s)

/-! ### Operation sequences

To state lifetime properties ("for every sequence of operations ...") the
canister's entry points are reified as an `Op` type together with a `step`
function giving the state after one call. -/

/-- One call to an entry point, with its arguments; calls that read the
clock also carry the time `now` at which they run. -/
inductive Op where
  | addProduct (payload : ProductPayload) (now : Nat)
  | updateProduct (id : Nat) (payload : ProductPayload) (now : Nat)
  | addQuantity (id : Nat) (payload : StockPayload) (now : Nat)
  | offloadQuantity (id : Nat) (payload : StockPayload) (now : Nat)
  | removeProduct (id : Nat)
  | clearAllProducts
  | getProduct (id : Nat)
  | getStock (id : Nat)
  | searchByCategory (category : Category)
  | listAllProducts
deriving Repr

/-- The state after one call (queries never write the state). -/
def step (s : State) (op : Op) : State :=
  match op with
  | Op.addProduct payload now => (add_product s payload now).2
  | Op.updateProduct id payload now => (update_product s id payload now).2
  | Op.addQuantity id payload now => (add_quantity s id payload now).2
  | Op.offloadQuantity id payload now => (offload_quantity s id payload now).2
  | Op.removeProduct id => (remove_product s id).2
  | Op.clearAllProducts => clear_all_products s
  | Op.getProduct _ => s
  | Op.getStock _ => s
  | Op.searchByCategory _ => s
  | Op.listAllProducts => s

/-- The state after a sequence of calls. -/
def run (s : State) (ops : List Op) : State :=
  ops.foldl step s

/-- The id returned by a call, when the call is a successful
`add_product`; `none` otherwise. -/
def addedId? (s : State) (op : Op) : Option Nat :=
  match op with
  | Op.addProduct payload now =>
    match (add_product s payload now).1 with
    | Except.ok p => some p.id
    | Except.error _ => none
  | _ => none

/-- The ids returned by the successful `add_product` calls of a sequence,
in call order. -/
def returnedIds (s : State) : List Op → List Nat
  | [] => []
  | op :: rest =>
    match addedId? s op with
    | some i => i :: returnedIds (step s op) rest
    | none => returnedIds (step s op) rest

/-- Well-formed storage: entries sorted by strictly increasing key (the
`StableBTreeMap` iteration order) and every record stored under its own
id.  Holds in `initState` and is preserved by every operation. -/
def WF (s : State) : Prop :=
  s.storage.Pairwise (fun a b => a.1 < b.1) ∧ ∀ kv ∈ s.storage, kv.2.id = kv.1

/-! ### Concrete sample data, used to instantiate theorems with
hypotheses on explicit inputs. -/

/-- A sample stored record. -/
def sampleProduct : Product := ⟨0, "Muffin", Category.Bakery, 10, 0, none⟩

/-- A sample state holding `sampleProduct` under id 0. -/
def sampleState : State := ⟨1, [(0, sampleProduct)]⟩

/-- A record whose quantity is the largest `u32` value. -/
def maxProduct : Product := ⟨0, "Muffin", Category.Bakery, U32MOD - 1, 0, none⟩

/-- A state holding `maxProduct` under id 0. -/
def maxState : State := ⟨1, [(0, maxProduct)]⟩

/-- A valid sample payload. -/
def samplePayload : ProductPayload := ⟨"Scone", 5, Category.Cake⟩

/-! ### Store lemmas -/

theorem storeGet_insert_self (l : List (Nat × Product)) (id : Nat) (p : Product) :
    storeGet (storeInsert l id p) id = some p := by
  induction l with
  | nil => simp [storeInsert, storeGet]
  | cons kv rest ih =>
    obtain ⟨k, v⟩ := kv
    by_cases h1 : id < k
    · simp [storeInsert, h1, storeGet]
    · by_cases h2 : id = k
      · simp [storeInsert, h1, h2, storeGet]
      · have hk : ¬ k = id := fun h => h2 h.symm
        simp [storeInsert, h1, h2, storeGet, hk, ih]

theorem mem_storeInsert {l : List (Nat × Product)} {id : Nat} {p : Product}
    {kv : Nat × Product} (h : kv ∈ storeInsert l id p) : kv = (id, p) ∨ kv ∈ l := by
  induction l with
  | nil =>
    simp [storeInsert] at h
    exact Or.inl h
  | cons hd rest ih =>
    obtain ⟨k, v⟩ := hd
    by_cases h1 : id < k
    · simp only [storeInsert, if_pos h1] at h
      rcases List.mem_cons.mp h with h | h
      · exact Or.inl h
      · exact Or.inr h
    · by_cases h2 : id = k
      · simp only [storeInsert, if_neg h1, if_pos h2] at h
        rcases List.mem_cons.mp h with h | h
        · exact Or.inl h
        · exact Or.inr (List.mem_cons_of_mem _ h)
      · simp only [storeInsert, if_neg h1, if_neg h2] at h
        rcases List.mem_cons.mp h with h | h
        · exact Or.inr (h ▸ List.mem_cons_self _ _)
        · rcases ih h with h | h
          · exact Or.inl h
          · exact Or.inr (List.mem_cons_of_mem _ h)

theorem storeInsert_pairwise {l : List (Nat × Product)} {id : Nat} {p : Product}
    (hl : l.Pairwise (fun a b => a.1 < b.1)) :
    (storeInsert l id p).Pairwise (fun a b => a.1 < b.1) := by
  induction l with
  | nil => simp [storeInsert]
  | cons hd rest ih =>
    obtain ⟨k, v⟩ := hd
    rw [List.pairwise_cons] at hl
    obtain ⟨hk, hrest⟩ := hl
    by_cases h1 : id < k
    · simp only [storeInsert, if_pos h1]
      refine List.pairwise_cons.mpr ⟨?_, List.pairwise_cons.mpr ⟨hk, hrest⟩⟩
      intro b hb
      rcases List.mem_cons.mp hb with h | h
      · subst h; exact h1
      · exact lt_trans h1 (hk b h)
    · by_cases h2 : id = k
      · simp only [storeInsert, if_neg h1, if_pos h2]
        refine List.pairwise_cons.mpr ⟨?_, hrest⟩
        intro b hb
        exact h2 ▸ hk b hb
      · simp only [storeInsert, if_neg h1, if_neg h2]
        refine List.pairwise_cons.mpr ⟨?_, ih hrest⟩
        intro b hb
        have hklt : k < id := by omega
        rcases mem_storeInsert hb with h | h
        · subst h; exact hklt
        · exact hk b h

theorem storeGet_mem {l : List (Nat × Product)} {id : Nat} {p : Product}
    (h : storeGet l id = some p) : (id, p) ∈ l := by
  induction l with
  | nil => simp [storeGet] at h
  | cons hd rest ih =>
    obtain ⟨k, v⟩ := hd
    by_cases hk : k = id
    · subst hk
      simp [storeGet] at h
      subst h
      exact List.mem_cons_self _ _
    · simp only [storeGet, if_neg hk] at h
      exact List.mem_cons_of_mem _ (ih h)

theorem mem_storeRemoveKey {l : List (Nat × Product)} {id : Nat}
    {kv : Nat × Product} (h : kv ∈ storeRemoveKey l id) : kv ∈ l :=
  List.mem_of_mem_filter h

theorem storeRemoveKey_pairwise {l : List (Nat × Product)} {id : Nat}
    (hl : l.Pairwise (fun a b => a.1 < b.1)) :
    (storeRemoveKey l id).Pairwise (fun a b => a.1 < b.1) :=
  hl.filter _

theorem foldl_removeKey_eq_nil :
    ∀ (keys : List Nat) (l : List (Nat × Product)),
      (∀ kv ∈ l, kv.1 ∈ keys) →
      keys.foldl (fun st k => storeRemoveKey st k) l = [] := by
  intro keys
  induction keys with
  | nil =>
    intro l hl
    cases l with
    | nil => rfl
    | cons hd tl => exact absurd (hl hd (List.mem_cons_self _ _)) (List.not_mem_nil _)
  | cons k rest ih =>
    intro l hl
    simp only [List.foldl_cons]
    apply ih
    intro kv hkv
    have h1 : kv ∈ l := mem_storeRemoveKey hkv
    have h2 : kv.1 ≠ k := by
      have := List.of_mem_filter hkv
      simpa using this
    rcases List.mem_cons.mp (hl kv h1) with h | h
    · exact absurd h h2
    · exact h

theorem clear_all_products_storage (s : State) :
    (clear_all_products s).storage = [] := by
  apply foldl_removeKey_eq_nil
  intro kv hkv
  exact List.mem_map_of_mem (fun kv => kv.1) hkv

theorem clear_all_products_counter (s : State) :
    (clear_all_products s).counter = s.counter := rfl

/-! ### Validation lemmas -/

theorem validate_product_payload_error {payload : ProductPayload} {e : Error}
    (h : validate_product_payload payload = Except.error e) :
    ∃ m, e = Error.InvalidOperation m := by
  unfold validate_product_payload at h
  by_cases h1 : trim_is_empty payload.name
  · rw [if_pos h1] at h
    exact ⟨_, (Except.error.inj h).symm⟩
  · rw [if_neg h1] at h
    by_cases h2 : payload.quantity = 0
    · rw [if_pos h2] at h
      exact ⟨_, (Except.error.inj h).symm⟩
    · rw [if_neg h2] at h
      exact absurd h (by simp)

theorem validate_stock_payload_error {payload : StockPayload} {e : Error}
    (h : validate_stock_payload payload = Except.error e) :
    ∃ m, e = Error.InvalidOperation m := by
  unfold validate_stock_payload at h
  by_cases h1 : payload.amount = 0
  · rw [if_pos h1] at h
    exact ⟨_, (Except.error.inj h).symm⟩
  · rw [if_neg h1] at h
    exact absurd h (by simp)

theorem validate_stock_payload_ok {payload : StockPayload}
    (h : 0 < payload.amount) : validate_stock_payload payload = Except.ok () := by
  unfold validate_stock_payload
  rw [if_neg (by omega)]

/-! ### Operation equation and counter lemmas -/

theorem add_product_invalid {payload : ProductPayload} {e : Error}
    (h : validate_product_payload payload = Except.error e) (s : State) (now : Nat) :
    add_product s payload now = (Except.error e, s) := by
  simp [add_product, h]

theorem add_product_valid {payload : ProductPayload}
    (h : validate_product_payload payload = Except.ok ()) (s : State) (now : Nat) :
    add_product s payload now =
      (Except.ok (⟨s.counter, payload.name, payload.category, payload.quantity, now, none⟩ : Product),
        ⟨s.counter + 1, storeInsert s.storage s.counter
          ⟨s.counter, payload.name, payload.category, payload.quantity, now, none⟩⟩) := by
  simp [add_product, h, generate_unique_id]

theorem update_product_counter (s : State) (id : Nat) (payload : ProductPayload) (now : Nat) :
    (update_product s id payload now).2.counter = s.counter := by
  unfold update_product
  split
  · rfl
  · split <;> rfl

theorem add_quantity_counter (s : State) (id : Nat) (payload : StockPayload) (now : Nat) :
    (add_quantity s id payload now).2.counter = s.counter := by
  unfold add_quantity
  split
  · rfl
  · split <;> rfl

theorem offload_quantity_counter (s : State) (id : Nat) (payload : StockPayload) (now : Nat) :
    (offload_quantity s id payload now).2.counter = s.counter := by
  unfold offload_quantity
  split
  · rfl
  · split
    · split
      · rfl
      · split <;> rfl
    · rfl

theorem remove_product_counter (s : State) (id : Nat) :
    (remove_product s id).2.counter = s.counter := by
  unfold remove_product
  split <;> rfl

/-! ### Step and counter lemmas -/

theorem run_nil (s : State) : run s [] = s := rfl

theorem run_cons (s : State) (op : Op) (rest : List Op) :
    run s (op :: rest) = run (step s op) rest := rfl

theorem addedId_none_counter {s : State} {op : Op} (h : addedId? s op = none) :
    (step s op).counter = s.counter := by
  cases op with
  | addProduct payload now =>
    rcases hv : validate_product_payload payload with e | u
    · simp [step, add_product_invalid hv]
    · cases u
      simp [addedId?, add_product_valid hv] at h
  | updateProduct id payload now => simp [step, update_product_counter]
  | addQuantity id payload now => simp [step, add_quantity_counter]
  | offloadQuantity id payload now => simp [step, offload_quantity_counter]
  | removeProduct id => simp [step, remove_product_counter]
  | clearAllProducts => simp [step, clear_all_products_counter]
  | getProduct id => rfl
  | getStock id => rfl
  | searchByCategory c => rfl
  | listAllProducts => rfl

theorem addedId_some {s : State} {op : Op} {i : Nat} (h : addedId? s op = some i) :
    i = s.counter ∧ (step s op).counter = s.counter + 1 := by
  cases op with
  | addProduct payload now =>
    rcases hv : validate_product_payload payload with e | u
    · simp [addedId?, add_product_invalid hv] at h
    · cases u
      simp [addedId?, add_product_valid hv] at h
      subst h
      exact ⟨rfl, by simp [step, add_product_valid hv]⟩
  | updateProduct id payload now => simp [addedId?] at h
  | addQuantity id payload now => simp [addedId?] at h
  | offloadQuantity id payload now => simp [addedId?] at h
  | removeProduct id => simp [addedId?] at h
  | clearAllProducts => simp [addedId?] at h
  | getProduct id => simp [addedId?] at h
  | getStock id => simp [addedId?] at h
  | searchByCategory c => simp [addedId?] at h
  | listAllProducts => simp [addedId?] at h

theorem counter_le_step (s : State) (op : Op) : s.counter ≤ (step s op).counter := by
  cases h : addedId? s op with
  | none => rw [addedId_none_counter h]
  | some i => rw [(addedId_some h).2]; omega

theorem counter_le_run (ops : List Op) : ∀ s : State, s.counter ≤ (run s ops).counter := by
  induction ops with
  | nil => intro s; exact Nat.le_refl _
  | cons op rest ih =>
    intro s
    rw [run_cons]
    exact Nat.le_trans (counter_le_step s op) (ih (step s op))

/-! ### Returned-id lemmas -/

theorem mem_returnedIds_bounds (ops : List Op) :
    ∀ (s : State) (i : Nat), i ∈ returnedIds s ops →
      s.counter ≤ i ∧ i < (run s ops).counter := by
  induction ops with
  | nil => intro s i h; simp [returnedIds] at h
  | cons op rest ih =>
    intro s i h
    rw [returnedIds] at h
    rw [run_cons]
    cases ha : addedId? s op with
    | some j =>
      rw [ha] at h
      obtain ⟨hj, hc⟩ := addedId_some ha
      rcases List.mem_cons.mp h with h | h
      · subst h
        subst hj
        refine ⟨Nat.le_refl _, ?_⟩
        have h1 := counter_le_run rest (step s op)
        omega
      · have h2 := ih (step s op) i h
        exact ⟨by omega, h2.2⟩
    | none =>
      rw [ha] at h
      have h2 := ih (step s op) i h
      rw [addedId_none_counter ha] at h2
      exact h2

theorem returnedIds_pairwise_lt (ops : List Op) :
    ∀ s : State, (returnedIds s ops).Pairwise (· < ·) := by
  induction ops with
  | nil => intro s; simp [returnedIds]
  | cons op rest ih =>
    intro s
    rw [returnedIds]
    cases ha : addedId? s op with
    | none => exact ih _
    | some i =>
      refine List.pairwise_cons.mpr ⟨?_, ih _⟩
      intro j hj
      obtain ⟨hi, hc⟩ := addedId_some ha
      have h2 := (mem_returnedIds_bounds rest (step s op) j hj).1
      omega

theorem returnedIds_eq_range' (ops : List Op) :
    ∀ s : State,
      returnedIds s ops = List.range' s.counter (returnedIds s ops).length := by
  induction ops with
  | nil => intro s; simp [returnedIds]
  | cons op rest ih =>
    intro s
    cases ha : addedId? s op with
    | none =>
      simp only [returnedIds, ha]
      rw [ih (step s op), addedId_none_counter ha]
      simp [List.length_range']
    | some i =>
      obtain ⟨hi, hc⟩ := addedId_some ha
      simp only [returnedIds, ha]
      rw [List.length_cons, List.range'_succ, ← hc, ← ih (step s op), hi]

/-! ### Remaining operation equation lemmas -/

theorem do_insert_eq (s : State) (p : Product) :
    do_insert s p = ⟨s.counter, storeInsert s.storage p.id p⟩ := rfl

theorem update_product_invalid {payload : ProductPayload} {e : Error}
    (h : validate_product_payload payload = Except.error e)
    (s : State) (id now : Nat) :
    update_product s id payload now = (Except.error e, s) := by
  simp [update_product, h]

theorem update_product_some {s : State} {id : Nat} {payload : ProductPayload} {p : Product}
    (hv : validate_product_payload payload = Except.ok ())
    (hget : storeGet s.storage id = some p) (now : Nat) :
    update_product s id payload now =
      (Except.ok ({ p with
          name := payload.name
          category := payload.category
          quantity := payload.quantity
          updated_at := some now } : Product),
        ⟨s.counter, storeInsert s.storage id
          { p with
            name := payload.name
            category := payload.category
            quantity := payload.quantity
            updated_at := some now }⟩) := by
  simp [update_product, hv, hget]

theorem update_product_none {s : State} {id : Nat} {payload : ProductPayload}
    (hv : validate_product_payload payload = Except.ok ())
    (hget : storeGet s.storage id = none) (now : Nat) :
    update_product s id payload now =
      (Except.error (Error.NotFound ("Product with id=" ++ toString id ++ " not found")), s) := by
  simp [update_product, hv, hget]

theorem add_quantity_invalid {payload : StockPayload} {e : Error}
    (h : validate_stock_payload payload = Except.error e)
    (s : State) (id now : Nat) :
    add_quantity s id payload now = (Except.error e, s) := by
  simp [add_quantity, h]

theorem add_quantity_some {s : State} {id : Nat} {payload : StockPayload} {p : Product}
    (hv : validate_stock_payload payload = Except.ok ())
    (hget : storeGet s.storage id = some p) (now : Nat) :
    add_quantity s id payload now =
      (Except.ok ({ p with
          quantity := (p.quantity + payload.amount) % U32MOD
          updated_at := some now } : Product),
        do_insert s { p with
          quantity := (p.quantity + payload.amount) % U32MOD
          updated_at := some now }) := by
  simp [add_quantity, hv, hget]

theorem add_quantity_none {s : State} {id : Nat} {payload : StockPayload}
    (hv : validate_stock_payload payload = Except.ok ())
    (hget : storeGet s.storage id = none) (now : Nat) :
    add_quantity s id payload now =
      (Except.error (Error.NotFound ("Couldn't add quantity to product with id="
        ++ toString id ++ ". Product not found")), s) := by
  simp [add_quantity, hv, hget]

theorem offload_quantity_invalid {payload : StockPayload} {e : Error}
    (h : validate_stock_payload payload = Except.error e)
    (s : State) (id now : Nat) :
    offload_quantity s id payload now = (Except.error e, s) := by
  simp [offload_quantity, h]

theorem offload_quantity_none {s : State} {id : Nat} {payload : StockPayload}
    (hv : validate_stock_payload payload = Except.ok ())
    (hget : storeGet s.storage id = none) (now : Nat) :
    offload_quantity s id payload now =
      (Except.error (Error.NotFound ("Couldn't offload a product with id="
        ++ toString id ++ ". Product not found")), s) := by
  simp [offload_quantity, hv, hget]

theorem offload_quantity_zero {s : State} {id : Nat} {payload : StockPayload} {p : Product}
    (hv : validate_stock_payload payload = Except.ok ())
    (hget : storeGet s.storage id = some p) (hq : p.quantity = 0) (now : Nat) :
    offload_quantity s id payload now =
      (Except.error (Error.InvalidOperation ("Product with id=" ++ toString id
        ++ " cannot be offloaded because the quantity is 0")), s) := by
  simp [offload_quantity, hv, hget, hq]

theorem offload_quantity_excess {s : State} {id : Nat} {payload : StockPayload} {p : Product}
    (hv : validate_stock_payload payload = Except.ok ())
    (hget : storeGet s.storage id = some p) (hq0 : p.quantity ≠ 0)
    (hlt : p.quantity < payload.amount) (now : Nat) :
    offload_quantity s id payload now =
      (Except.error (Error.InvalidOperation ("Cannot offload more than available quantity. Available: "
        ++ toString p.quantity ++ ", Trying to offload: " ++ toString payload.amount)), s) := by
  simp [offload_quantity, hv, hget, hq0, hlt]

theorem offload_quantity_ok {s : State} {id : Nat} {payload : StockPayload} {p : Product}
    (hv : validate_stock_payload payload = Except.ok ())
    (hget : storeGet s.storage id = some p) (hq0 : p.quantity ≠ 0)
    (hge : payload.amount ≤ p.quantity) (now : Nat) :
    offload_quantity s id payload now =
      (Except.ok ({ p with
          quantity := p.quantity - payload.amount
          updated_at := some now } : Product),
        do_insert s { p with
          quantity := p.quantity - payload.amount
          updated_at := some now }) := by
  simp [offload_quantity, hv, hget, hq0, Nat.not_lt.mpr hge]

theorem remove_product_some {s : State} {id : Nat} {p : Product}
    (hget : storeGet s.storage id = some p) :
    remove_product s id = (Except.ok p, ⟨s.counter, storeRemoveKey s.storage id⟩) := by
  simp [remove_product, hget]

theorem remove_product_none {s : State} {id : Nat}
    (hget : storeGet s.storage id = none) :
    remove_product s id =
      (Except.error (Error.NotFound ("Couldn't delete a product with id="
        ++ toString id ++ ". Product not found")), s) := by
  simp [remove_product, hget]

/-! ### Well-formedness is preserved by every operation -/

theorem WF_initState : WF initState :=
  ⟨List.Pairwise.nil, by intro kv hkv; simp [initState] at hkv⟩

theorem WF_insert {s : State} (h : WF s) {id : Nat} {p : Product}
    (hid : p.id = id) (c : Nat) : WF ⟨c, storeInsert s.storage id p⟩ := by
  obtain ⟨h1, h2⟩ := h
  refine ⟨storeInsert_pairwise h1, ?_⟩
  intro kv hkv
  rcases mem_storeInsert hkv with hkv | hkv
  · subst hkv; exact hid
  · exact h2 kv hkv

theorem WF_step {s : State} (h : WF s) (op : Op) : WF (step s op) := by
  cases op with
  | addProduct payload now =>
    rcases hv : validate_product_payload payload with e | u
    · simpa [step, add_product_invalid hv] using h
    · cases u
      simp only [step, add_product_valid hv]
      refine WF_insert h ?_ _
      rfl
  | updateProduct id payload now =>
    rcases hv : validate_product_payload payload with e | u
    · simpa [step, update_product_invalid hv] using h
    · cases u
      cases hget : storeGet s.storage id with
      | none => simpa [step, update_product_none hv hget] using h
      | some p =>
        simp only [step, update_product_some hv hget]
        refine WF_insert h ?_ _
        exact h.2 _ (storeGet_mem hget)
  | addQuantity id payload now =>
    rcases hv : validate_stock_payload payload with e | u
    · simpa [step, add_quantity_invalid hv] using h
    · cases u
      cases hget : storeGet s.storage id with
      | none => simpa [step, add_quantity_none hv hget] using h
      | some p =>
        simp only [step, add_quantity_some hv hget, do_insert_eq]
        refine WF_insert h ?_ _
        rfl
  | offloadQuantity id payload now =>
    rcases hv : validate_stock_payload payload with e | u
    · simpa [step, offload_quantity_invalid hv] using h
    · cases u
      cases hget : storeGet s.storage id with
      | none => simpa [step, offload_quantity_none hv hget] using h
      | some p =>
        by_cases hq : p.quantity = 0
        · simpa [step, offload_quantity_zero hv hget hq] using h
        · by_cases hlt : p.quantity < payload.amount
          · simpa [step, offload_quantity_excess hv hget hq hlt] using h
          · simp only [step, offload_quantity_ok hv hget hq (Nat.not_lt.mp hlt), do_insert_eq]
            refine WF_insert h ?_ _
            rfl
  | removeProduct id =>
    cases hget : storeGet s.storage id with
    | none => simpa [step, remove_product_none hget] using h
    | some p =>
      simp only [step, remove_product_some hget]
      exact ⟨storeRemoveKey_pairwise h.1, fun kv hkv => h.2 kv (mem_storeRemoveKey hkv)⟩
  | clearAllProducts =>
    refine ⟨?_, ?_⟩ <;> rw [show (step s Op.clearAllProducts).storage = [] from
      clear_all_products_storage s]
    · exact List.Pairwise.nil
    · intro kv hkv; simp at hkv
  | getProduct id => exact h
  | getStock id => exact h
  | searchByCategory c => exact h
  | listAllProducts => exact h

theorem WF_run (ops : List Op) : ∀ s : State, WF s → WF (run s ops) := by
  induction ops with
  | nil => intro s h; exact h
  | cons op rest ih =>
    intro s h
    rw [run_cons]
    exact ih _ (WF_step h op)

/-! ### Scan lemmas -/

theorem filter_map_comm (l : List (Nat × Product)) (c : Category) :
    (l.filter (fun kv => decide (kv.2.category = c))).map (fun kv => kv.2) =
      (l.map (fun kv => kv.2)).filter (fun p => decide (p.category = c)) := by
  induction l with
  | nil => rfl
  | cons kv rest ih =>
    by_cases h : kv.2.category = c <;> simp [List.filter_cons, h, ih]

theorem list_all_products_ids_sorted {s : State} (h : WF s) :
    ((list_all_products s).map Product.id).Pairwise (· < ·) := by
  obtain ⟨h1, h2⟩ := h
  unfold list_all_products
  rw [List.map_map]
  have hcongr : s.storage.map (Product.id ∘ fun kv => kv.2) =
      s.storage.map (fun kv => kv.1) :=
    List.map_congr_left (fun kv hkv => h2 kv hkv)
  rw [hcongr]
  exact (List.pairwise_map).mpr h1

/-! ### Further shared lemmas -/

theorem add_product_ok_id {s : State} {payload : ProductPayload} {now : Nat}
    {p1 : Product} (h : (add_product s payload now).1 = Except.ok p1) :
    p1.id = s.counter := by
  rcases hv : validate_product_payload payload with e | u
  · rw [add_product_invalid hv] at h
    simp at h
  · cases u
    rw [add_product_valid hv] at h
    have h2 := Except.ok.inj h
    rw [← h2]

theorem offload_quantity_error_frame {s : State} {id a now : Nat} {e : Error}
    (h : (offload_quantity s id ⟨a⟩ now).1 = Except.error e) :
    (offload_quantity s id ⟨a⟩ now).2 = s := by
  rcases hv : validate_stock_payload ⟨a⟩ with e1 | u
  · rw [offload_quantity_invalid hv]
  · cases u
    cases hget : storeGet s.storage id with
    | none => rw [offload_quantity_none hv hget]
    | some p =>
      by_cases hq : p.quantity = 0
      · rw [offload_quantity_zero hv hget hq]
      · by_cases hlt : p.quantity < a
        · rw [offload_quantity_excess hv hget hq hlt]
        · rw [offload_quantity_ok hv hget hq (Nat.not_lt.mp hlt)] at h ⊢
          simp at h

/-! ### The claims -/

/-- C1: for every starting state and every sequence of operations, the ids
returned by successive successful `add_product` calls are strictly
increasing — hence pairwise unique, and no returned id is ever returned
again for the lifetime of the store — and the allocator counter is only
ever incremented (it never decreases across any operation). -/
theorem add_product_ids_strictly_increasing :
    (∀ (s : State) (ops : List Op), (returnedIds s ops).Pairwise (· < ·)) ∧
    (∀ (s : State) (op : Op), s.counter ≤ (step s op).counter) :=
  ⟨fun s ops => returnedIds_pairwise_lt ops s, counter_le_step⟩

/-- C2 counterexample: the claim demands quantity `q + a` as an unbounded
integer for all `q` and `a`, but the source adds `u32` values: with stored
quantity `2^32 - 1` and amount 1, `add_quantity` succeeds and stores
quantity 0, not `2^32`. -/
theorem add_quantity_exact_sum_cex :
    (add_quantity maxState 0 ⟨1⟩ 5).1 =
      Except.ok ⟨0, "Muffin", Category.Bakery, 0, 0, some 5⟩ ∧
    (0 : Nat) ≠ maxProduct.quantity + 1 := by
  constructor
  · decide
  · decide

/-- C2 (amended): for every well-formed state storing record `p` under
`id` and every amount `a > 0`, `add_quantity(id, {amount := a})` succeeds
and leaves the stored record's quantity equal to `(p.quantity + a) % 2^32`
— which is exactly `p.quantity + a` (including from `p.quantity = 0`)
whenever the sum fits in a `u32`. -/
theorem add_quantity_adds_amount_mod (s : State) (id a now : Nat) (p : Product)
    (hwf : WF s) (hget : storeGet s.storage id = some p) (ha : 0 < a) :
    ∃ p1, (add_quantity s id ⟨a⟩ now).1 = Except.ok p1 ∧
      p1.quantity = (p.quantity + a) % U32MOD ∧
      (p.quantity + a < U32MOD → p1.quantity = p.quantity + a) ∧
      storeGet (add_quantity s id ⟨a⟩ now).2.storage id = some p1 := by
  have hv : validate_stock_payload ⟨a⟩ = Except.ok () := validate_stock_payload_ok ha
  have hid : p.id = id := hwf.2 _ (storeGet_mem hget)
  refine ⟨{ p with
      quantity := (p.quantity + (⟨a⟩ : StockPayload).amount) % U32MOD
      updated_at := some now }, ?_, rfl, ?_, ?_⟩
  · rw [add_quantity_some hv hget]
  · intro hlt
    exact Nat.mod_eq_of_lt hlt
  · rw [add_quantity_some hv hget, do_insert_eq]
    have hid1 : ({ p with
        quantity := (p.quantity + (⟨a⟩ : StockPayload).amount) % U32MOD
        updated_at := some now } : Product).id = id := hid
    rw [hid1]
    exact storeGet_insert_self _ _ _

/-- Witness for the amended C2 at a concrete input. -/
theorem add_quantity_adds_amount_mod_witness :
    WF sampleState ∧ storeGet sampleState.storage 0 = some sampleProduct ∧ 0 < 5 ∧
    (∃ p1, (add_quantity sampleState 0 ⟨5⟩ 7).1 = Except.ok p1 ∧
      p1.quantity = (sampleProduct.quantity + 5) % U32MOD ∧
      (sampleProduct.quantity + 5 < U32MOD → p1.quantity = sampleProduct.quantity + 5) ∧
      storeGet (add_quantity sampleState 0 ⟨5⟩ 7).2.storage 0 = some p1) :=
  ⟨by constructor <;> simp [sampleState, sampleProduct], by decide, by decide,
    add_quantity_adds_amount_mod sampleState 0 5 7 sampleProduct
      (by constructor <;> simp [sampleState, sampleProduct]) (by decide) (by decide)⟩

/-- C3: for a stored record `p`, `offload_quantity` returns
`InvalidOperation` whenever `p.quantity = 0` (for any requested amount,
zero amounts included — those fail stock validation, also with
`InvalidOperation`) or the requested amount exceeds `p.quantity`; in every
such failure the whole state — in particular the record, its quantity and
its `updated_at` — is left unchanged. -/
theorem offload_quantity_invalid_rejected (s : State) (id a now : Nat) (p : Product)
    (hget : storeGet s.storage id = some p)
    (hbad : p.quantity = 0 ∨ p.quantity < a) :
    (∃ m, (offload_quantity s id ⟨a⟩ now).1 = Except.error (Error.InvalidOperation m)) ∧
    (offload_quantity s id ⟨a⟩ now).2 = s := by
  by_cases ha : a = 0
  · have he : validate_stock_payload ⟨a⟩ =
        Except.error (Error.InvalidOperation "Stock amount must be greater than zero.") := by
      simp [validate_stock_payload, ha]
    rw [offload_quantity_invalid he]
    exact ⟨⟨_, rfl⟩, rfl⟩
  · have hv : validate_stock_payload ⟨a⟩ = Except.ok () := by
      simp [validate_stock_payload, ha]
    by_cases hq : p.quantity = 0
    · rw [offload_quantity_zero hv hget hq]
      exact ⟨⟨_, rfl⟩, rfl⟩
    · rcases hbad with h | h
      · exact absurd h hq
      · rw [offload_quantity_excess hv hget hq h]
        exact ⟨⟨_, rfl⟩, rfl⟩

/-- Witness for C3 at a concrete input (requested amount 20 exceeds the
stored quantity 10). -/
theorem offload_quantity_invalid_rejected_witness :
    storeGet sampleState.storage 0 = some sampleProduct ∧
    (sampleProduct.quantity = 0 ∨ sampleProduct.quantity < 20) ∧
    ((∃ m, (offload_quantity sampleState 0 ⟨20⟩ 5).1 =
        Except.error (Error.InvalidOperation m)) ∧
      (offload_quantity sampleState 0 ⟨20⟩ 5).2 = sampleState) :=
  ⟨by decide, by decide,
    offload_quantity_invalid_rejected sampleState 0 20 5 sampleProduct (by decide) (by decide)⟩

/-- C4: the subtraction in `offload_quantity` never underflows: whenever
the operation succeeds, the requested amount was at most the stored
quantity, and the new quantity equals the old one minus the amount even
over the integers, hence is never negative; and whenever the operation
fails, no mutation has happened (the error branches guard the
subtraction). -/
theorem offload_quantity_no_underflow :
    (∀ (s : State) (id a now : Nat) (p1 : Product),
      (offload_quantity s id ⟨a⟩ now).1 = Except.ok p1 →
      ∃ p, storeGet s.storage id = some p ∧ a ≤ p.quantity ∧
        (p1.quantity : Int) = (p.quantity : Int) - (a : Int) ∧
        0 ≤ (p1.quantity : Int)) ∧
    (∀ (s : State) (id a now : Nat) (e : Error),
      (offload_quantity s id ⟨a⟩ now).1 = Except.error e →
      (offload_quantity s id ⟨a⟩ now).2 = s) := by
  constructor
  · intro s id a now p1 hok
    rcases hv : validate_stock_payload ⟨a⟩ with e | u
    · rw [offload_quantity_invalid hv] at hok
      simp at hok
    · cases u
      cases hget : storeGet s.storage id with
      | none =>
        rw [offload_quantity_none hv hget] at hok
        simp at hok
      | some p =>
        by_cases hq : p.quantity = 0
        · rw [offload_quantity_zero hv hget hq] at hok
          simp at hok
        · by_cases hlt : p.quantity < a
          · rw [offload_quantity_excess hv hget hq hlt] at hok
            simp at hok
          · have hge : a ≤ p.quantity := Nat.not_lt.mp hlt
            rw [offload_quantity_ok hv hget hq hge] at hok
            have h2 := Except.ok.inj hok
            refine ⟨p, rfl, hge, ?_, ?_⟩
            · rw [← h2]
              push_cast [Nat.cast_sub hge]
              ring
            · rw [← h2]
              exact Int.ofNat_nonneg _
  · intro s id a now e h
    exact offload_quantity_error_frame h

/-- Witness for C4 at a concrete input (offloading 3 of 10). -/
theorem offload_quantity_no_underflow_witness :
    (offload_quantity sampleState 0 ⟨3⟩ 7).1 =
      Except.ok ⟨0, "Muffin", Category.Bakery, 7, 0, some 7⟩ ∧
    ∃ p, storeGet sampleState.storage 0 = some p ∧ 3 ≤ p.quantity ∧
      (((⟨0, "Muffin", Category.Bakery, 7, 0, some 7⟩ : Product).quantity : Int) =
        (p.quantity : Int) - (3 : Int)) ∧
      0 ≤ (((⟨0, "Muffin", Category.Bakery, 7, 0, some 7⟩ : Product).quantity : Int)) :=
  ⟨by decide,
    offload_quantity_no_underflow.1 sampleState 0 3 7
      ⟨0, "Muffin", Category.Bakery, 7, 0, some 7⟩ (by decide)⟩

/-- C5 counterexample: the claim says `update_product(id, payload)` returns
`NotFound` when no record with that id exists, but with an invalid payload
(empty name) and an absent id the source validates first and returns
`InvalidOperation`, not `NotFound`. -/
theorem update_product_notfound_cex :
    storeGet initState.storage 0 = none ∧
    (update_product initState 0 ⟨"", 1, Category.Bakery⟩ 5).1 =
      Except.error (Error.InvalidOperation "Product name cannot be empty.") := by
  constructor
  · decide
  · decide

/-- C5 (amended): provided the payload passes validation, `update_product`
returns `NotFound` (leaving the state unchanged) when no record with the
id exists; when the record exists it succeeds, the returned and stored
record keeps `id` and `created_at`, takes `name`, `category` and
`quantity` from the payload, and has `updated_at` set to the current
time. -/
theorem update_product_spec (s : State) (id now : Nat) (payload : ProductPayload)
    (hv : validate_product_payload payload = Except.ok ()) :
    (storeGet s.storage id = none →
      ∃ m, update_product s id payload now = (Except.error (Error.NotFound m), s)) ∧
    (∀ p, storeGet s.storage id = some p →
      ∃ p1, (update_product s id payload now).1 = Except.ok p1 ∧
        p1.id = p.id ∧ p1.created_at = p.created_at ∧
        p1.name = payload.name ∧ p1.category = payload.category ∧
        p1.quantity = payload.quantity ∧ p1.updated_at = some now ∧
        storeGet (update_product s id payload now).2.storage id = some p1) := by
  constructor
  · intro hget
    rw [update_product_none hv hget]
    exact ⟨_, rfl⟩
  · intro p hget
    refine ⟨{ p with
        name := payload.name
        category := payload.category
        quantity := payload.quantity
        updated_at := some now }, ?_, rfl, rfl, rfl, rfl, rfl, rfl, ?_⟩
    · rw [update_product_some hv hget]
    · rw [update_product_some hv hget]
      exact storeGet_insert_self _ _ _

/-- Witness for the amended C5 at a concrete input. -/
theorem update_product_spec_witness :
    validate_product_payload samplePayload = Except.ok () ∧
    storeGet sampleState.storage 0 = some sampleProduct ∧
    (∃ p1, (update_product sampleState 0 samplePayload 9).1 = Except.ok p1 ∧
      p1.id = sampleProduct.id ∧ p1.created_at = sampleProduct.created_at ∧
      p1.name = samplePayload.name ∧ p1.category = samplePayload.category ∧
      p1.quantity = samplePayload.quantity ∧ p1.updated_at = some 9 ∧
      storeGet (update_product sampleState 0 samplePayload 9).2.storage 0 = some p1) :=
  ⟨by decide, by decide,
    (update_product_spec sampleState 0 9 samplePayload (by decide)).2
      sampleProduct (by decide)⟩

/-- C6: `add_product` and `update_product` fail with `InvalidOperation`
whenever the payload name is empty after trimming or the payload quantity
is 0, and on every such failure the whole state — the product store and
the allocator counter — is unchanged (validation runs before any id
allocation or store write). -/
theorem invalid_payload_rejected (s : State) (id now1 now2 : Nat)
    (payload : ProductPayload)
    (hbad : trim_is_empty payload.name = true ∨ payload.quantity = 0) :
    (∃ m, (add_product s payload now1).1 = Except.error (Error.InvalidOperation m)) ∧
    (add_product s payload now1).2 = s ∧
    (∃ m, (update_product s id payload now2).1 = Except.error (Error.InvalidOperation m)) ∧
    (update_product s id payload now2).2 = s := by
  have he : ∃ m, validate_product_payload payload =
      Except.error (Error.InvalidOperation m) := by
    by_cases h1 : trim_is_empty payload.name
    · exact ⟨"Product name cannot be empty.", by simp [validate_product_payload, h1]⟩
    · rcases hbad with h | h
      · exact absurd h h1
      · exact ⟨"Product quantity must be greater than zero.",
          by simp [validate_product_payload, h1, h]⟩
  obtain ⟨m, hm⟩ := he
  rw [add_product_invalid hm, update_product_invalid hm]
  exact ⟨⟨m, rfl⟩, rfl, ⟨m, rfl⟩, rfl⟩

/-- Witness for C6 at a concrete input (whitespace-only name). -/
theorem invalid_payload_rejected_witness :
    (trim_is_empty (ProductPayload.mk "   " 5 Category.Bakery).name = true ∨
      (ProductPayload.mk "   " 5 Category.Bakery).quantity = 0) ∧
    ((∃ m, (add_product sampleState ⟨"   ", 5, Category.Bakery⟩ 1).1 =
        Except.error (Error.InvalidOperation m)) ∧
      (add_product sampleState ⟨"   ", 5, Category.Bakery⟩ 1).2 = sampleState ∧
      (∃ m, (update_product sampleState 0 ⟨"   ", 5, Category.Bakery⟩ 2).1 =
        Except.error (Error.InvalidOperation m)) ∧
      (update_product sampleState 0 ⟨"   ", 5, Category.Bakery⟩ 2).2 = sampleState) :=
  ⟨by decide,
    invalid_payload_rejected sampleState 0 1 2 ⟨"   ", 5, Category.Bakery⟩ (by decide)⟩

/-- C7: `clear_all_products` (which is total: it returns a state, never an
error) removes every record, so `list_all_products` afterwards is empty;
it leaves the allocator counter unchanged; and an `add_product` that
succeeds after a clear of any state reachable from the initial state
returns an id never returned by any `add_product` before the clear. -/
theorem clear_all_products_spec :
    (∀ s : State, list_all_products (clear_all_products s) = [] ∧
      (clear_all_products s).counter = s.counter) ∧
    (∀ (ops : List Op) (payload : ProductPayload) (now : Nat) (p1 : Product),
      (add_product (clear_all_products (run initState ops)) payload now).1 =
        Except.ok p1 →
      p1.id ∉ returnedIds initState ops) := by
  constructor
  · intro s
    constructor
    · unfold list_all_products
      rw [clear_all_products_storage]
      rfl
    · rfl
  · intro ops payload now p1 hok
    have hid := add_product_ok_id hok
    rw [clear_all_products_counter] at hid
    intro hmem
    have hlt := (mem_returnedIds_bounds ops initState p1.id hmem).2
    omega

/-- Witness for C7: after adding one product (id 0) and clearing, a fresh
`add_product` returns id 1, which was never returned before the clear. -/
theorem clear_all_products_spec_witness :
    (add_product (clear_all_products
        (run initState [Op.addProduct ⟨"Muffin", 10, Category.Bakery⟩ 0]))
        samplePayload 1).1 =
      Except.ok ⟨1, "Scone", Category.Cake, 5, 1, none⟩ ∧
    (Product.mk 1 "Scone" Category.Cake 5 1 none).id ∉
      returnedIds initState [Op.addProduct ⟨"Muffin", 10, Category.Bakery⟩ 0] :=
  ⟨by decide,
    clear_all_products_spec.2 [Op.addProduct ⟨"Muffin", 10, Category.Bakery⟩ 0]
      samplePayload 1 ⟨1, "Scone", Category.Cake, 5, 1, none⟩ (by decide)⟩

/-- C8: `search_by_category c` is exactly the filter of
`list_all_products` on category `c` (so it is the subsequence of the full
scan with category `c`, in the same relative order), and for every state
reachable from the initial state the full scan is in strictly ascending id
order.  Both operations are pure functions of the state (they neither fail
nor mutate: they read, but do not return, a state). -/
theorem search_by_category_eq_filter :
    (∀ (s : State) (c : Category),
      search_by_category s c =
        (list_all_products s).filter (fun p => decide (p.category = c))) ∧
    (∀ ops : List Op,
      ((list_all_products (run initState ops)).map Product.id).Pairwise (· < ·)) := by
  constructor
  · intro s c
    unfold search_by_category list_all_products
    exact filter_map_comm s.storage c
  · intro ops
    exact list_all_products_ids_sorted (WF_run ops initState WF_initState)

/-- C9: in `update_product`, `add_quantity` and `offload_quantity`,
payload validation runs before the existence check: with an invalid
payload and an absent id, each operation returns the validation error —
which is always an `InvalidOperation`, never `NotFound` — and leaves the
state unchanged. -/
theorem validation_precedes_existence (s : State) (id now1 now2 now3 : Nat)
    (pp : ProductPayload) (sp : StockPayload) (ep es : Error)
    (hpp : validate_product_payload pp = Except.error ep)
    (hsp : validate_stock_payload sp = Except.error es)
    (_hid : storeGet s.storage id = none) :
    update_product s id pp now1 = (Except.error ep, s) ∧
    add_quantity s id sp now2 = (Except.error es, s) ∧
    offload_quantity s id sp now3 = (Except.error es, s) ∧
    (∃ m, ep = Error.InvalidOperation m) ∧
    (∃ m, es = Error.InvalidOperation m) :=
  ⟨update_product_invalid hpp s id now1, add_quantity_invalid hsp s id now2,
    offload_quantity_invalid hsp s id now3,
    validate_product_payload_error hpp, validate_stock_payload_error hsp⟩

/-- Witness for C9 at a concrete input: empty store, empty name, zero
amount. -/
theorem validation_precedes_existence_witness :
    validate_product_payload ⟨"", 1, Category.Bakery⟩ =
      Except.error (Error.InvalidOperation "Product name cannot be empty.") ∧
    validate_stock_payload ⟨0⟩ =
      Except.error (Error.InvalidOperation "Stock amount must be greater than zero.") ∧
    storeGet initState.storage 0 = none ∧
    (update_product initState 0 ⟨"", 1, Category.Bakery⟩ 1 =
      (Except.error (Error.InvalidOperation "Product name cannot be empty."), initState) ∧
    add_quantity initState 0 ⟨0⟩ 2 =
      (Except.error (Error.InvalidOperation "Stock amount must be greater than zero."), initState) ∧
    offload_quantity initState 0 ⟨0⟩ 3 =
      (Except.error (Error.InvalidOperation "Stock amount must be greater than zero."), initState) ∧
    (∃ m, Error.InvalidOperation "Product name cannot be empty." = Error.InvalidOperation m) ∧
    (∃ m, Error.InvalidOperation "Stock amount must be greater than zero." = Error.InvalidOperation m)) :=
  ⟨by decide, by decide, by decide,
    validation_precedes_existence initState 0 1 2 3 ⟨"", 1, Category.Bakery⟩ ⟨0⟩
      (Error.InvalidOperation "Product name cannot be empty.")
      (Error.InvalidOperation "Stock amount must be greater than zero.")
      (by decide) (by decide) (by decide)⟩

/-- C10: ids are allocated consecutively from 0: over any operation
sequence from the initial state the successful `add_product` calls return
`0, 1, 2, ...` in order (the n-th success returns `n - 1`); an operation
that is not a successful `add_product` leaves the counter unchanged, and a
successful `add_product` returns the counter and increments it by exactly
1. -/
theorem id_allocation_consecutive :
    (∀ ops : List Op, returnedIds initState ops =
      List.range (returnedIds initState ops).length) ∧
    (∀ (s : State) (op : Op), addedId? s op = none →
      (step s op).counter = s.counter) ∧
    (∀ (s : State) (op : Op) (i : Nat), addedId? s op = some i →
      i = s.counter ∧ (step s op).counter = s.counter + 1) := by
  refine ⟨?_, fun s op h => addedId_none_counter h, fun s op i h => addedId_some h⟩
  intro ops
  calc returnedIds initState ops
      = List.range' 0 (returnedIds initState ops).length := by
        simpa [initState] using returnedIds_eq_range' ops initState
    _ = List.range (returnedIds initState ops).length :=
        (List.range_eq_range' _).symm

/-- Witness for C10: a non-add operation keeps the counter; a successful
add returns the counter value and bumps it by 1. -/
theorem id_allocation_consecutive_witness :
    (addedId? sampleState (Op.removeProduct 0) = none ∧
      (step sampleState (Op.removeProduct 0)).counter = sampleState.counter) ∧
    (addedId? sampleState (Op.addProduct samplePayload 3) = some sampleState.counter ∧
      sampleState.counter = sampleState.counter ∧
      (step sampleState (Op.addProduct samplePayload 3)).counter = sampleState.counter + 1) :=
  ⟨⟨by decide, id_allocation_consecutive.2.1 sampleState (Op.removeProduct 0) (by decide)⟩,
    ⟨by decide, id_allocation_consecutive.2.2 sampleState
      (Op.addProduct samplePayload 3) sampleState.counter (by decide)⟩⟩

end BakeryShop
